import Mathlib

/-!
Verification of the passkey wallet starter application: session persistence
(WalletService), input validation (ValidationUtils), display formatting
(FormattingUtils), the Solana transfer builder and confirmation service
(SolanaService), and the error mapping of the welcome and confirm screens.
JavaScript numbers are modelled as exact rationals or integers, timestamps as
integer milliseconds, and RPC/SDK library calls as explicit environment
parameters or outcome values.
-/

namespace Passkey

/-- Session record persisted in the encrypted key-value store
(types/index.ts, interface WalletSession). Timestamps are millisecond Unix
times; deviceInfo is the optional device identifier. -/
structure WalletSession where
  publicKey : String
  credentialId : String
  createdAt : Int
  lastAccessedAt : Int
  deviceInfo : Option String
deriving Repr, DecidableEq

/-- Thirty days in milliseconds, the MAX_SESSION_AGE constant of
WalletService.isSessionValid. -/
def MAX_SESSION_AGE : Int := 30 * 24 * 60 * 60 * 1000

/-- WalletService.isSessionValid: a null session is invalid; otherwise the
session age, Date.now() minus lastAccessedAt, is compared against
MAX_SESSION_AGE and the session is rejected when sessionAge >= MAX_SESSION_AGE.
Date.now() is passed explicitly as the parameter now. -/
def isSessionValid (now : Int) (session : Option WalletSession) : Bool :=
  match session with
  | none => false
  | some s =>
    let sessionAge := now - s.lastAccessedAt
    if sessionAge ≥ MAX_SESSION_AGE then false else true

/-- Math.round of JavaScript: round to the nearest integer, halves toward
positive infinity. -/
def jsRound (q : ℚ) : Int := ⌊q + 1 / 2⌋

/-- formatUSDCAmountToLamports (utils/ValidationUtils.ts): USDC has six
decimals, so the decimal amount is multiplied by 1,000,000 and rounded with
Math.round. -/
def formatUSDCAmountToLamports (amount : ℚ) : Int := jsRound (amount * 1000000)

/-- truncateAddress (utils/FormattingUtils.ts). An empty string is falsy in
JavaScript, so the first guard returns the empty string; a string of length at
most startChars + endChars is returned unchanged; longer strings are cut to a
prefix, an ellipsis and a suffix (address.slice(0, startChars) and
address.slice(-endChars); the suffix branch assumes endChars >= 1, which holds
for every call site and for the defaults). -/
def truncateAddress (address : String) (startChars : Nat := 4) (endChars : Nat := 4) : String :=
  if address = "" then ""
  else if address.length ≤ startChars + endChars then address
  else
    String.mk (address.toList.take startChars) ++ "..." ++
      String.mk (address.toList.drop (address.length - endChars))

/-- Actions performed by the post-connect effect of the welcome screen
(app/index.tsx, saveSessionAndNavigate). -/
inductive ConnectAction where
  | saveSession (s : WalletSession)
  | logSaveFailure
  | navigate (route : String)
deriving Repr, DecidableEq

/-- Post-connect effect of the welcome screen (app/index.tsx,
saveSessionAndNavigate): when the wallet is connected and exposes a public
key, a session record is built and saved; a save failure is caught and logged;
router.replace to /home runs afterwards in either case. The saveFails flag
models whether WalletService.saveSession throws; now models Date.now(). -/
def saveSessionAndNavigate (isConnected : Bool) (smartWalletPubkey : Option String)
    (now : Int) (saveFails : Bool) : List ConnectAction :=
  match isConnected, smartWalletPubkey with
  | true, some pk =>
    let session : WalletSession :=
      { publicKey := pk, credentialId := "lazorkit", createdAt := now,
        lastAccessedAt := now, deviceInfo := none }
    (if saveFails then [ConnectAction.saveSession session, ConnectAction.logSaveFailure]
     else [ConnectAction.saveSession session]) ++ [ConnectAction.navigate "/home"]
  | _, _ => []

/-- Status values of the TransactionStatus record (types/index.ts). -/
inductive TxStatusKind where
  | pending
  | confirmed
  | failed
deriving Repr, DecidableEq

/-- TransactionStatus record returned by SolanaService.confirmTransaction
(types/index.ts). Optional fields are Options; timestamps are millisecond
Unix times. -/
structure TransactionStatus where
  signature : Option String
  status : TxStatusKind
  confirmations : Int
  error : Option String
  explorerUrl : Option String
  submittedAt : Int
  confirmedAt : Option Int
deriving Repr, DecidableEq

/-- Solana Explorer base URL (services/constants.ts, SOLANA_EXPLORER_URL). -/
def SOLANA_EXPLORER_URL : String := "https://explorer.solana.com"

/-- Outcome of the library call connection.confirmTransaction on a signature:
either the promise resolves and its value carries an err field (null for
success, modelled as none; a truthy on-chain error whose JSON.stringify text is
the carried string), or the call throws an exception whose message property
may be absent (a non-Error thrown value) or empty. -/
inductive ConfirmOutcome where
  | resolved (err : Option String)
  | thrown (message : Option String)
deriving Repr, DecidableEq

/-- JavaScript truthiness fallback m || d on strings: an absent or empty
message falls back to the default string. -/
def jsStringOr (m : Option String) (d : String) : String :=
  match m with
  | some s => if s = "" then d else s
  | none => d

/-- SolanaService.confirmTransaction: the single library confirmation call is
wrapped in try/catch and every outcome is mapped to a returned
TransactionStatus record; the function is total, so it never throws. The
timestamps taken by Date.now() before the call and after a successful
resolution are passed as submittedAt and confirmedAt. -/
def confirmTransaction (signature : String) (submittedAt confirmedAt : Int)
    (outcome : ConfirmOutcome) : TransactionStatus :=
  match outcome with
  | .resolved (some e) =>
    { signature := some signature, status := .failed, confirmations := 32,
      error := some ("Transaction failed: " ++ e),
      explorerUrl := some (SOLANA_EXPLORER_URL ++ "/tx/" ++ signature ++ "?cluster=devnet"),
      submittedAt := submittedAt, confirmedAt := some confirmedAt }
  | .resolved none =>
    { signature := some signature, status := .confirmed, confirmations := 32,
      error := none,
      explorerUrl := some (SOLANA_EXPLORER_URL ++ "/tx/" ++ signature ++ "?cluster=devnet"),
      submittedAt := submittedAt, confirmedAt := some confirmedAt }
  | .thrown m =>
    { signature := some signature, status := .failed, confirmations := 0,
      error := some (jsStringOr m "Transaction confirmation failed"),
      explorerUrl := some (SOLANA_EXPLORER_URL ++ "/tx/" ++ signature ++ "?cluster=devnet"),
      submittedAt := submittedAt, confirmedAt := none }

/-- Store key under which the wallet session is persisted
(services/WalletService.ts, SESSION_KEY). -/
def SESSION_KEY : String := "WALLET_SESSION"

/-- Writes and warnings issued by WalletService.loadSession against the
encrypted key-value store. The stored JSON string of a session is abstracted
to the record itself. -/
inductive StoreAction where
  | setItem (key : String) (value : WalletSession)
  | logUpdateFailure
deriving Repr, DecidableEq

/-- WalletService.loadSession: read the stored item (none models a missing
item, the empty string is falsy and treated as missing); parse stands for
JSON.parse, whose throw is modelled as none and caught by the outer catch
returning null; on success lastAccessedAt is set to Date.now() (the parameter
now), the refreshed record is re-saved under SESSION_KEY, and a failing
re-save (resaveFails) is caught, logged and ignored. Returns the session
result together with the trace of store writes. -/
def loadSession (parse : String → Option WalletSession) (stored : Option String)
    (now : Int) (resaveFails : Bool) : Option WalletSession × List StoreAction :=
  match stored with
  | none => (none, [])
  | some raw =>
    if raw = "" then (none, [])
    else
      match parse raw with
      | none => (none, [])
      | some session =>
        let refreshed := { session with lastAccessedAt := now }
        (some refreshed,
          if resaveFails then [StoreAction.setItem SESSION_KEY refreshed, StoreAction.logUpdateFailure]
          else [StoreAction.setItem SESSION_KEY refreshed])

/-- Substring test modelling the includes method of JavaScript strings. -/
def jsIncludes (s pat : String) : Bool := decide (List.IsInfix pat.toList s.toList)

/-- Optional chaining error.message?.includes(pat): an undefined message makes
the whole expression undefined, which is falsy. -/
def jsIncludesOpt (m : Option String) (pat : String) : Bool :=
  match m with
  | some s => jsIncludes s pat
  | none => false

/-- ASCII lowering modelling toLowerCase on the error messages involved. -/
def jsToLower (s : String) : String := String.mk (s.toList.map Char.toLower)

/-- Error-message mapping of the catch block of handleConfirmAndSign
(app/confirm.tsx): the let-bound generic default is overwritten by the first
matching substring bucket of the if/else chain. -/
def confirmErrorDisplay (message : Option String) : String :=
  if jsIncludesOpt message "User rejected" || jsIncludesOpt message "cancelled" then
    "Transaction signing was cancelled"
  else if jsIncludesOpt message "not initialized" then
    "Recipient has not yet initialized their USDC account. They must receive USDC at least once before you can send to them."
  else if jsIncludesOpt message "Insufficient" then
    "You don\x27t have enough USDC to complete this transfer"
  else if jsIncludesOpt message "Network" || jsIncludesOpt message "timeout" then
    "Network error. Please check your connection and try again."
  else if jsIncludesOpt message "rejected" || jsIncludesOpt message "Paymaster" then
    "Transaction could not be sponsored. Please try again later."
  else
    "Transaction failed. Please try again."

/-- Error-message mapping of the catch block of handleCreateWallet
(app/index.tsx): substring buckets over the lower-cased message. -/
def createWalletErrorDisplay (message : Option String) : String :=
  if jsIncludesOpt (message.map jsToLower) "cancel" || jsIncludesOpt (message.map jsToLower) "abort" then
    "Authentication cancelled. Please try again."
  else if jsIncludesOpt (message.map jsToLower) "network" || jsIncludesOpt (message.map jsToLower) "timeout" then
    "Network error. Please check your connection and try again."
  else
    "Failed to create wallet. Please try again."

/-- Public keys, associated token accounts and blockhashes are base58 strings
for this embedding. -/
abbrev PubKey := String

/-- USDC mint address on Devnet (services/constants.ts, USDC_MINT_DEVNET). -/
def USDC_MINT_DEVNET : PubKey := "Gh9ZwEmdLJ8DscKNTkTqPbNwLNNBjuSzaG9Vp2KGtKJr"

/-- SPL token program id, imported by the source from @solana/spl-token. -/
def TOKEN_PROGRAM_ID : PubKey := "TokenkegQfeZyiNwAJbNbGKPFXCWuBvf9Ss623VQ5DA"

/-- Pending transfer request produced by the transfer form
(types/index.ts, interface TransactionRequest). -/
structure TransactionRequest where
  recipientAddress : String
  amount : ℚ
  amountLamports : Int
  memo : Option String
  timestamp : Int

/-- On-chain account data returned by connection.getAccountInfo; only its
presence matters to the source, so a single field suffices. -/
structure AccountInfo where
  lamports : Int
deriving Repr, DecidableEq

/-- SPL transfer instruction as built by createTransferInstruction of
@solana/spl-token: source and destination token accounts, owner of the source,
amount in lamports, multisigners, and the program id. -/
structure SplTransferInstruction where
  source : PubKey
  destination : PubKey
  owner : PubKey
  amount : Int
  multiSigners : List PubKey
  programId : PubKey
deriving DecidableEq

/-- Library constructor createTransferInstruction of @solana/spl-token. -/
def createTransferInstruction (source destination owner : PubKey) (amount : Int)
    (multiSigners : List PubKey) (programId : PubKey) : SplTransferInstruction :=
  { source := source, destination := destination, owner := owner,
    amount := amount, multiSigners := multiSigners, programId := programId }

/-- Transaction record of @solana/web3.js as used by the source: the
instruction list built with new Transaction().add, the fee payer, and the
recent blockhash. -/
structure Transaction where
  instructions : List SplTransferInstruction
  feePayer : Option PubKey
  recentBlockhash : Option String
deriving DecidableEq

/-- RPC and SDK library environment for SolanaService.buildUSDCTransfer. The
claim considers runs in which the library calls succeed, so each call is a
total function: newPublicKey is the PublicKey constructor on the recipient
address, getAssociatedTokenAddress derives the token account of an owner for a
mint (third argument allowOwnerOffCurve), getAccountInfo is the RPC account
lookup (none models null), and latestBlockhash is the blockhash field of
getLatestBlockhash. -/
structure RpcEnv where
  newPublicKey : String → PubKey
  getAssociatedTokenAddress : PubKey → PubKey → Bool → PubKey
  getAccountInfo : PubKey → Option AccountInfo
  latestBlockhash : String

/-- Error message thrown by buildUSDCTransfer when the recipient token account
is missing. -/
def RECIPIENT_NOT_INITIALIZED_MSG : String :=
  "Recipient USDC token account not initialized. They must receive USDC at least once before you can send to them."

/-- SolanaService.buildUSDCTransfer: parse the recipient address, derive the
sender and recipient associated token accounts for the USDC mint (with
allowOwnerOffCurve set), fail when the RPC lookup of the recipient account
returns null, and otherwise return a transaction holding the single transfer
instruction, the sender as fee payer, and the freshly fetched blockhash. -/
def buildUSDCTransfer (env : RpcEnv) (request : TransactionRequest)
    (senderPublicKey : PubKey) : Except String Transaction :=
  let usdcMint := USDC_MINT_DEVNET
  let recipientPublicKey := env.newPublicKey request.recipientAddress
  let senderTokenAccount := env.getAssociatedTokenAddress usdcMint senderPublicKey true
  let recipientTokenAccount := env.getAssociatedTokenAddress usdcMint recipientPublicKey true
  match env.getAccountInfo recipientTokenAccount with
  | none => Except.error RECIPIENT_NOT_INITIALIZED_MSG
  | some _ =>
    let transferInstruction := createTransferInstruction senderTokenAccount
      recipientTokenAccount senderPublicKey request.amountLamports [] TOKEN_PROGRAM_ID
    Except.ok { instructions := [transferInstruction],
                feePayer := some senderPublicKey,
                recentBlockhash := some env.latestBlockhash }

/-- Test environment for the C1 witness: identity address parsing, a tagging
token-account derivation, every account present, and a fixed blockhash. -/
def c1TestEnv : RpcEnv :=
  { newPublicKey := fun s => s,
    getAssociatedTokenAddress := fun mint owner _ => mint ++ "/" ++ owner,
    getAccountInfo := fun _ => some { lamports := 1 },
    latestBlockhash := "bh" }

/-- Test request for the C1 witness. -/
def c1TestRequest : TransactionRequest :=
  { recipientAddress := "recipient", amount := 21 / 2, amountLamports := 10500000,
    memo := none, timestamp := 0 }

/-- Whitespace recognised by the trim method and by parseFloat of JavaScript
(ASCII whitespace, no-break space and the byte-order mark; further exotic
Unicode spaces are irrelevant to the strings involved). -/
def isJsWs (c : Char) : Bool :=
  c = ' ' || c = '\t' || c = '\n' || c = '\r' ||
  c = Char.ofNat 11 || c = Char.ofNat 12 || c = Char.ofNat 160 || c = Char.ofNat 0xFEFF

/-- Test for s.trim().length === 0: every character is whitespace. -/
def jsTrimEmpty (s : String) : Bool := s.toList.all isJsWs

/-- Bitcoin base58 alphabet used by the bs58 decoder underlying the PublicKey
constructor of @solana/web3.js. -/
def base58Alphabet : List Char :=
  "123456789ABCDEFGHJKLMNPQRSTUVWXYZabcdefghijkmnopqrstuvwxyz".toList

/-- Value of one base58 digit; none for a character outside the alphabet
(bs58 throws on such characters). -/
def b58Digit (c : Char) : Option Nat :=
  if c ∈ base58Alphabet then some (base58Alphabet.indexOf c) else none

/-- One step of the base58 big-endian accumulation; a missing digit or an
already failed accumulator propagates failure. -/
def b58Step (acc : Option Nat) (c : Char) : Option Nat :=
  match acc, b58Digit c with
  | some v, some d => some (v * 58 + d)
  | _, _ => none

/-- Numeric value of a base58 string, none when any character is invalid. -/
def b58DecodeNat (l : List Char) : Option Nat := l.foldl b58Step (some 0)

/-- Big-endian base-256 digits of a natural number (empty for zero); the fuel
bounds the recursion and 64 bytes cover every value of a 44-character base58
string. -/
def natToBytesBE (fuel : Nat) (n : Nat) : List Nat :=
  match fuel with
  | 0 => []
  | f + 1 => if n = 0 then [] else natToBytesBE f (n / 256) ++ [n % 256]

/-- Base58 decoding as performed by bs58: each leading character 1 denotes a
zero byte, the rest is the big-endian base-256 expansion of the numeric
value. -/
def b58Decode (s : String) : Option (List Nat) :=
  match b58DecodeNat s.toList with
  | none => none
  | some v =>
    let zeros := (s.toList.takeWhile (fun c => c = '1')).length
    some (List.replicate zeros 0 ++ natToBytesBE 64 v)

/-- PublicKey constructor of @solana/web3.js on a string: base58-decode and
require exactly 32 bytes, throwing (none) otherwise. -/
def tryNewPublicKey (s : String) : Option (List Nat) :=
  match b58Decode s with
  | none => none
  | some bytes => if bytes.length = 32 then some bytes else none

/-- Validation result returned by the validators of utils/ValidationUtils.ts. -/
structure ValidationResult where
  valid : Bool
  error : Option String
deriving Repr, DecidableEq

/-- isValidSolanaAddress (utils/ValidationUtils.ts): reject an empty or
all-whitespace string, then a length outside 32 to 44, then anything the
PublicKey constructor rejects; accept the rest. -/
def isValidSolanaAddress (address : String) : ValidationResult :=
  if address = "" ∨ jsTrimEmpty address = true then
    { valid := false, error := some "Recipient address is required" }
  else if address.length < 32 ∨ address.length > 44 then
    { valid := false, error := some "Invalid Solana address format" }
  else
    match tryNewPublicKey address with
    | some _ => { valid := true, error := none }
    | none => { valid := false, error := some "Invalid Solana address format" }

/-- Finite JavaScript number represented as an exact fraction num/den with a
positive denominator (a power of ten by construction of the parser). -/
structure JSFinite where
  num : Int
  den : Nat
deriving Repr, DecidableEq

/-- Value classification of a JavaScript number as produced by parseFloat:
NaN, an infinity, or a finite decimal. -/
inductive JSNum where
  | nan
  | posInf
  | negInf
  | num (v : JSFinite)
deriving Repr, DecidableEq

/-- Test modelling Number.isNaN on a parseFloat result. -/
def JSNum.isNaN : JSNum → Bool
  | .nan => true
  | _ => false

/-- Comparison x <= 0 of JavaScript: false for NaN, true for negative
infinity, and the sign of the numerator for a finite fraction. -/
def JSNum.leZero : JSNum → Bool
  | .nan => false
  | .posInf => false
  | .negInf => true
  | .num v => decide (v.num ≤ 0)

/-- Strict positivity of a parseFloat result (positive infinity counts as
positive, NaN does not). -/
def JSNum.isPositive : JSNum → Bool
  | .posInf => true
  | .num v => decide (0 < v.num)
  | _ => false

/-- Value of a decimal digit string read in base ten. -/
def digitsToNat (l : List Char) : Nat :=
  l.foldl (fun a c => a * 10 + (c.toNat - Char.toNat '0')) 0

/-- Exponent part of a StrDecimalLiteral after the letter e or E: an optional
sign followed by digits; when no digit follows, parseFloat does not consume
the exponent, so it contributes a factor of one (exponent zero). -/
def parseExpPart (l : List Char) : Int :=
  match l with
  | '+' :: r =>
    let ds := r.takeWhile Char.isDigit
    if ds = [] then 0 else (digitsToNat ds : Int)
  | '-' :: r =>
    let ds := r.takeWhile Char.isDigit
    if ds = [] then 0 else -((digitsToNat ds : Int))
  | r =>
    let ds := r.takeWhile Char.isDigit
    if ds = [] then 0 else (digitsToNat ds : Int)

/-- Assemble the finite value sign * (mant / 10 ^ fracLen) * 10 ^ e as an
exact fraction. -/
def jsFiniteOfParts (neg : Bool) (mant : Nat) (fracLen : Nat) (e : Int) : JSFinite :=
  let n : Nat := match e with
    | Int.ofNat k => mant * 10 ^ k
    | Int.negSucc _ => mant
  let d : Nat := match e with
    | Int.ofNat _ => 10 ^ fracLen
    | Int.negSucc k => 10 ^ fracLen * 10 ^ (k + 1)
  { num := if neg then -(n : Int) else (n : Int), den := d }

/-- Longest StrDecimalLiteral prefix after an optional sign: either the
literal Infinity, or integer digits, an optional fraction after a dot, and an
optional well-formed exponent; with neither integer nor fraction digits the
parse fails (NaN). -/
def parseNumBody (neg : Bool) (l : List Char) : JSNum :=
  if l.take 8 = "Infinity".toList then (if neg then JSNum.negInf else JSNum.posInf)
  else
    let ip := l.takeWhile Char.isDigit
    let r1 := l.dropWhile Char.isDigit
    let fp := match r1 with
      | '.' :: t => t.takeWhile Char.isDigit
      | _ => []
    let r2 := match r1 with
      | '.' :: t => t.dropWhile Char.isDigit
      | _ => r1
    if ip = [] ∧ fp = [] then JSNum.nan
    else
      let mant : Nat := digitsToNat ip * 10 ^ fp.length + digitsToNat fp
      let e : Int := match r2 with
        | c :: t => if c = 'e' ∨ c = 'E' then parseExpPart t else 0
        | [] => 0
      JSNum.num (jsFiniteOfParts neg mant fp.length e)

/-- parseFloat of JavaScript: skip leading whitespace, read an optional sign,
then the longest decimal-literal prefix; NaN when nothing parses. -/
def jsParseFloat (s : String) : JSNum :=
  match s.toList.dropWhile isJsWs with
  | [] => JSNum.nan
  | '+' :: t => parseNumBody false t
  | '-' :: t => parseNumBody true t
  | l => parseNumBody false l

/-- Split of JavaScript strings on a one-character separator, as a list of the
segments between occurrences (split never returns an empty list). -/
def splitOnChar (c : Char) : List Char → List (List Char)
  | [] => [[]]
  | x :: xs =>
    if x = c then [] :: splitOnChar c xs
    else
      match splitOnChar c xs with
      | [] => [[x]]
      | h :: t => (x :: h) :: t

/-- Characters after the first dot of a string, none when it has no dot; this
phrases the decimal-place condition of the claim. -/
def afterFirstDot (l : List Char) : Option (List Char) :=
  match l.dropWhile (fun c => c != '.') with
  | [] => none
  | _ :: t => some t

/-- isValidAmount (utils/ValidationUtils.ts): reject an empty or
all-whitespace string, a parseFloat result that is NaN or not positive, and a
second split segment (the text between the first and second dot) longer than
six characters; accept everything else. -/
def isValidAmount (amount : String) : ValidationResult :=
  if amount = "" ∨ jsTrimEmpty amount = true then
    { valid := false, error := some "Amount is required" }
  else
    let numericAmount := jsParseFloat amount
    if numericAmount.isNaN = true then
      { valid := false, error := some "Amount must be a valid number" }
    else if numericAmount.leZero = true then
      { valid := false, error := some "Amount must be greater than zero" }
    else
      match splitOnChar '.' amount.toList with
      | _ :: p1 :: _ =>
        if p1.length > 6 then
          { valid := false, error := some "USDC supports up to 6 decimal places" }
        else { valid := true, error := none }
      | _ => { valid := true, error := none }

theorem jsRound_intCast (n : Int) : jsRound ((n : ℚ)) = n := by
  unfold jsRound
  rw [add_comm, Int.floor_add_int]
  norm_num

/-- C2 counterexample: at a session age of exactly thirty days the last-access
time is not more than thirty days in the past, yet isSessionValid returns
false, because the source compares with >= rather than >. -/
theorem c2_boundary_counterexample :
    isSessionValid 2592000000
      (some { publicKey := "pk", credentialId := "lazorkit", createdAt := 0,
              lastAccessedAt := 0, deviceInfo := none }) = false ∧
    ¬ ((2592000000 : Int) - 0 > MAX_SESSION_AGE) := by
  constructor
  · rfl
  · decide

/-- C2 (amended): isSessionValid returns true exactly when the last-accessed
time is strictly less than thirty days (MAX_SESSION_AGE milliseconds) before
the current time, and false when the age is at least thirty days. -/
theorem c2_isSessionValid_iff (now : Int) (s : WalletSession) :
    isSessionValid now (some s) = true ↔ now - s.lastAccessedAt < MAX_SESSION_AGE := by
  by_cases h : now - s.lastAccessedAt ≥ MAX_SESSION_AGE
  · simp only [isSessionValid, if_pos h]
    constructor
    · intro hc; cases hc
    · intro hc; omega
  · simp only [isSessionValid, if_neg h]
    constructor
    · intro _; omega
    · intro _; trivial

/-- C5: formatUSDCAmountToLamports is the decimal amount times 1,000,000
rounded (it differs from the exact product by at most one half); whenever the
amount has at most six decimal places, dividing the result by 1,000,000
recovers the amount exactly; and the two documented examples hold,
10.50 USDC giving 10,500,000 and 0.01 USDC giving 10,000. -/
theorem c5_formatUSDCAmountToLamports_spec :
    (∀ a : ℚ, |(formatUSDCAmountToLamports a : ℚ) - a * 1000000| ≤ 1 / 2) ∧
    (∀ a : ℚ, (a * 1000000).den = 1 → (formatUSDCAmountToLamports a : ℚ) / 1000000 = a) ∧
    formatUSDCAmountToLamports (105 / 10) = 10500000 ∧
    formatUSDCAmountToLamports (1 / 100) = 10000 := by
  refine ⟨?_, ?_, ?_, ?_⟩
  · intro a
    unfold formatUSDCAmountToLamports jsRound
    have h1 := Int.floor_le (a * 1000000 + 1 / 2)
    have h2 := Int.lt_floor_add_one (a * 1000000 + 1 / 2)
    rw [abs_le]
    constructor <;> linarith
  · intro a h
    have hint : a * 1000000 = (((a * 1000000).num : Int) : ℚ) := by
      conv_lhs => rw [← Rat.num_div_den (a * 1000000)]
      rw [h]
      norm_num
    have hfl : ((formatUSDCAmountToLamports a : Int) : ℚ) = a * 1000000 := by
      unfold formatUSDCAmountToLamports
      rw [hint, jsRound_intCast]
    rw [hfl]
    field_simp
  · show jsRound ((105 / 10 : ℚ) * 1000000) = 10500000
    rw [show ((105 / 10 : ℚ) * 1000000) = ((10500000 : Int) : ℚ) by norm_num]
    exact jsRound_intCast _
  · show jsRound ((1 / 100 : ℚ) * 1000000) = 10000
    rw [show ((1 / 100 : ℚ) * 1000000) = ((10000 : Int) : ℚ) by norm_num]
    exact jsRound_intCast _

/-- C5 witness: the amount 10.50 has at most six decimal places and round-trips
exactly through the minor-unit conversion. -/
theorem c5_witness :
    ((105 / 10 : ℚ) * 1000000).den = 1 ∧
    (formatUSDCAmountToLamports (105 / 10) : ℚ) / 1000000 = 105 / 10 := by
  have hden : ((105 / 10 : ℚ) * 1000000).den = 1 := by
    rw [show ((105 / 10 : ℚ) * 1000000) = (((10500000 : Int)) : ℚ) by norm_num]
    exact Rat.den_intCast _
  exact ⟨hden, c5_formatUSDCAmountToLamports_spec.2.1 (105 / 10) hden⟩

/-- C7: truncateAddress returns any address strictly shorter than the requested
prefix plus suffix length unchanged. -/
theorem c7_truncateAddress_short_unchanged (address : String) (startChars endChars : Nat)
    (h : address.length < startChars + endChars) :
    truncateAddress address startChars endChars = address := by
  unfold truncateAddress
  by_cases ha : address = ""
  · rw [if_pos ha, ha]
  · rw [if_neg ha, if_pos (Nat.le_of_lt h)]

/-- C7 witness: a three-character string is shorter than the default 4 + 4 and
is returned unchanged. -/
theorem c7_witness :
    ("abc" : String).length < 4 + 4 ∧ truncateAddress "abc" 4 4 = "abc" :=
  ⟨by decide, c7_truncateAddress_short_unchanged "abc" 4 4 (by decide)⟩

/-- C8: in the post-connect effect, with the wallet connected and a public key
present, the navigation to /home is always the final action whether or not the
session save throws, and a failing save is logged. -/
theorem c8_navigate_despite_save_failure (pk : String) (now : Int) :
    (∀ saveFails : Bool,
      (saveSessionAndNavigate true (some pk) now saveFails).getLast? =
        some (ConnectAction.navigate "/home")) ∧
    ConnectAction.logSaveFailure ∈ saveSessionAndNavigate true (some pk) now true := by
  constructor
  · intro b; cases b <;> rfl
  · simp [saveSessionAndNavigate]

/-- C3 counterexample: an exception carrying an empty message is recorded as
the fallback text, not as the thrown message, because the source uses
error.message || a default. -/
theorem c3_empty_message_counterexample :
    (confirmTransaction "sig" 0 0 (ConfirmOutcome.thrown (some ""))).error ≠ some "" := by
  decide

/-- C3 (amended): confirmTransaction is a total mapping from the outcome of
the single library confirmation call to a TransactionStatus record; the status
is confirmed exactly when the call resolves with no on-chain error, failed in
every other case; for a thrown exception the error field records the message
when it is present and non-empty, and the fixed fallback text whenever the
message is empty or absent. -/
theorem c3_confirmTransaction_mapping (signature : String) (submittedAt confirmedAt : Int)
    (outcome : ConfirmOutcome) :
    ((confirmTransaction signature submittedAt confirmedAt outcome).status = TxStatusKind.confirmed
        ↔ outcome = ConfirmOutcome.resolved none) ∧
    ((confirmTransaction signature submittedAt confirmedAt outcome).status = TxStatusKind.confirmed
        ∨ (confirmTransaction signature submittedAt confirmedAt outcome).status = TxStatusKind.failed) ∧
    (∀ m : String, outcome = ConfirmOutcome.thrown (some m) → m ≠ "" →
        (confirmTransaction signature submittedAt confirmedAt outcome).error = some m) ∧
    (outcome = ConfirmOutcome.thrown (some "") →
        (confirmTransaction signature submittedAt confirmedAt outcome).error =
          some "Transaction confirmation failed") ∧
    (outcome = ConfirmOutcome.thrown none →
        (confirmTransaction signature submittedAt confirmedAt outcome).error =
          some "Transaction confirmation failed") := by
  refine ⟨?_, ?_, ?_, ?_, ?_⟩
  · rcases outcome with err | msg
    · rcases err with _ | e <;> simp [confirmTransaction]
    · simp [confirmTransaction]
  · rcases outcome with err | msg
    · rcases err with _ | e <;> simp [confirmTransaction]
    · simp [confirmTransaction]
  · intro m hm hne
    subst hm
    simp [confirmTransaction, jsStringOr, hne]
  · intro hm
    subst hm
    simp [confirmTransaction, jsStringOr]
  · intro hm
    subst hm
    simp [confirmTransaction, jsStringOr]

/-- C3 witness: a thrown exception with the non-empty message boom is recorded
verbatim, while an empty and an absent message are both recorded as the
fallback text. -/
theorem c3_witness :
    (confirmTransaction "sig" 0 1 (ConfirmOutcome.thrown (some "boom"))).error = some "boom" ∧
    (confirmTransaction "sig" 0 1 (ConfirmOutcome.thrown (some ""))).error =
      some "Transaction confirmation failed" ∧
    (confirmTransaction "sig" 0 1 (ConfirmOutcome.thrown none)).error =
      some "Transaction confirmation failed" :=
  ⟨(c3_confirmTransaction_mapping "sig" 0 1 (ConfirmOutcome.thrown (some "boom"))).2.2.1
      "boom" rfl (by decide),
   (c3_confirmTransaction_mapping "sig" 0 1 (ConfirmOutcome.thrown (some ""))).2.2.2.1 rfl,
   (c3_confirmTransaction_mapping "sig" 0 1 (ConfirmOutcome.thrown none)).2.2.2.2 rfl⟩

/-- C9: whenever a stored session record exists (a non-empty item) and parses,
loadSession returns it with only lastAccessedAt changed to the load time,
leaving publicKey, credentialId, createdAt and deviceInfo untouched; the
refreshed record is re-persisted under the same key; and a failure of the
re-save does not change the returned session. -/
theorem c9_loadSession_refresh (parse : String → Option WalletSession) (raw : String)
    (now : Int) (resaveFails : Bool) (s : WalletSession)
    (hraw : raw ≠ "") (hparse : parse raw = some s) :
    (loadSession parse (some raw) now resaveFails).1 =
        some { publicKey := s.publicKey, credentialId := s.credentialId,
               createdAt := s.createdAt, lastAccessedAt := now,
               deviceInfo := s.deviceInfo } ∧
    StoreAction.setItem SESSION_KEY { s with lastAccessedAt := now }
        ∈ (loadSession parse (some raw) now resaveFails).2 ∧
    (loadSession parse (some raw) now true).1 = (loadSession parse (some raw) now false).1 := by
  refine ⟨?_, ?_, ?_⟩
  · simp [loadSession, hraw, hparse]
  · cases resaveFails <;> simp [loadSession, hraw, hparse]
  · simp [loadSession, hraw, hparse]

/-- C9 witness: a concrete parse function and stored item exercising the
refresh path. -/
theorem c9_witness :
    (loadSession
        (fun r => if r = "stored" then
            some { publicKey := "pk", credentialId := "lazorkit", createdAt := 5,
                   lastAccessedAt := 7, deviceInfo := some "phone" }
          else none)
        (some "stored") 99 true).1 =
      some { publicKey := "pk", credentialId := "lazorkit", createdAt := 5,
             lastAccessedAt := 99, deviceInfo := some "phone" } :=
  (c9_loadSession_refresh
      (fun r => if r = "stored" then
          some { publicKey := "pk", credentialId := "lazorkit", createdAt := 5,
                 lastAccessedAt := 7, deviceInfo := some "phone" }
        else none)
      "stored" 99 true
      { publicKey := "pk", credentialId := "lazorkit", createdAt := 5,
        lastAccessedAt := 7, deviceInfo := some "phone" }
      (by decide) (by decide)).1

/-- C6: every error reaching the confirm-screen catch block is mapped to one of
the six fixed user-facing strings (cancellation, recipient account not
initialized, insufficient balance, network/timeout, paymaster rejection,
generic failure), and every error reaching the welcome-screen connect catch
block to one of its three fixed strings; no other display string is ever
produced. -/
theorem c6_error_display_fixed_set (message : Option String) :
    confirmErrorDisplay message ∈
      ["Transaction signing was cancelled",
       "Recipient has not yet initialized their USDC account. They must receive USDC at least once before you can send to them.",
       "You don\x27t have enough USDC to complete this transfer",
       "Network error. Please check your connection and try again.",
       "Transaction could not be sponsored. Please try again later.",
       "Transaction failed. Please try again."] ∧
    createWalletErrorDisplay message ∈
      ["Authentication cancelled. Please try again.",
       "Network error. Please check your connection and try again.",
       "Failed to create wallet. Please try again."] := by
  constructor
  · unfold confirmErrorDisplay
    repeat' split
    all_goals simp
  · unfold createWalletErrorDisplay
    repeat' split
    all_goals simp

/-- C1: buildUSDCTransfer fails with the fixed not-initialized message exactly
when the RPC lookup of the derived recipient token account returns null, this
is its only error, and when the account exists it returns a transaction whose
single instruction is the SPL transfer of request.amountLamports from the
derived sender token account to the derived recipient token account owned by
the sender, with the sender as fee payer and the freshly fetched blockhash. -/
theorem c1_buildUSDCTransfer_spec (env : RpcEnv) (request : TransactionRequest)
    (senderPublicKey : PubKey) :
    (buildUSDCTransfer env request senderPublicKey
        = Except.error RECIPIENT_NOT_INITIALIZED_MSG
      ↔ env.getAccountInfo
          (env.getAssociatedTokenAddress USDC_MINT_DEVNET
            (env.newPublicKey request.recipientAddress) true) = none) ∧
    (∀ e : String, buildUSDCTransfer env request senderPublicKey = Except.error e →
      e = RECIPIENT_NOT_INITIALIZED_MSG) ∧
    (∀ info : AccountInfo,
      env.getAccountInfo
          (env.getAssociatedTokenAddress USDC_MINT_DEVNET
            (env.newPublicKey request.recipientAddress) true) = some info →
      buildUSDCTransfer env request senderPublicKey =
        Except.ok
          { instructions :=
              [createTransferInstruction
                (env.getAssociatedTokenAddress USDC_MINT_DEVNET senderPublicKey true)
                (env.getAssociatedTokenAddress USDC_MINT_DEVNET
                  (env.newPublicKey request.recipientAddress) true)
                senderPublicKey request.amountLamports [] TOKEN_PROGRAM_ID],
            feePayer := some senderPublicKey,
            recentBlockhash := some env.latestBlockhash }) := by
  refine ⟨?_, ?_, ?_⟩
  · simp only [buildUSDCTransfer]
    cases h : env.getAccountInfo
        (env.getAssociatedTokenAddress USDC_MINT_DEVNET
          (env.newPublicKey request.recipientAddress) true) <;> simp [h]
  · intro e he
    simp only [buildUSDCTransfer] at he
    cases h : env.getAccountInfo
        (env.getAssociatedTokenAddress USDC_MINT_DEVNET
          (env.newPublicKey request.recipientAddress) true) <;>
      rw [h] at he <;> simp at he
    exact he.symm
  · intro info hinfo
    simp only [buildUSDCTransfer]
    rw [hinfo]

/-- C1 witness: in the test environment the builder returns the expected
single-instruction transaction. -/
theorem c1_witness :
    buildUSDCTransfer c1TestEnv c1TestRequest "sender" =
      Except.ok
        { instructions :=
            [createTransferInstruction
              (c1TestEnv.getAssociatedTokenAddress USDC_MINT_DEVNET "sender" true)
              (c1TestEnv.getAssociatedTokenAddress USDC_MINT_DEVNET
                (c1TestEnv.newPublicKey c1TestRequest.recipientAddress) true)
              "sender" c1TestRequest.amountLamports [] TOKEN_PROGRAM_ID],
          feePayer := some "sender",
          recentBlockhash := some c1TestEnv.latestBlockhash } :=
  (c1_buildUSDCTransfer_spec c1TestEnv c1TestRequest "sender").2.2
    { lamports := 1 } rfl

theorem b58Step_none (c : Char) : b58Step none c = none := by
  unfold b58Step
  cases b58Digit c <;> rfl

theorem foldl_b58Step_none (l : List Char) : l.foldl b58Step none = none := by
  induction l with
  | nil => rfl
  | cons x t ih => rw [List.foldl_cons, b58Step_none, ih]

theorem mem_alphabet_of_foldl (l : List Char) (acc : Option Nat) (v : Nat)
    (h : l.foldl b58Step acc = some v) : ∀ c ∈ l, c ∈ base58Alphabet := by
  induction l generalizing acc with
  | nil => intro c hc; cases hc
  | cons x t ih =>
    intro c hc
    have hx : x ∈ base58Alphabet := by
      by_contra hnx
      have hdig : b58Digit x = none := by unfold b58Digit; rw [if_neg hnx]
      have hstep : b58Step acc x = none := by
        unfold b58Step; rw [hdig]; cases acc <;> rfl
      rw [List.foldl_cons, hstep, foldl_b58Step_none] at h
      exact Option.noConfusion h
    rcases List.mem_cons.mp hc with rfl | hct
    · exact hx
    · exact ih (b58Step acc x) (by rw [List.foldl_cons] at h; exact h) c hct

theorem alphabet_not_ws : ∀ c ∈ base58Alphabet, isJsWs c = false := by decide

/-- C4: isValidSolanaAddress accepts a string exactly when its length lies in
the 32 to 44 range and it survives base58 public-key decoding (decodes to 32
bytes); in particular every string outside the length range and every string
failing base58 decoding is rejected, and every well-formed address of length
32 to 44 is accepted. -/
theorem c4_isValidSolanaAddress_iff (address : String) :
    (isValidSolanaAddress address).valid = true ↔
      (32 ≤ address.length ∧ address.length ≤ 44 ∧ (tryNewPublicKey address).isSome = true) := by
  constructor
  · intro h
    unfold isValidSolanaAddress at h
    by_cases h1 : address = "" ∨ jsTrimEmpty address = true
    · rw [if_pos h1] at h; exact absurd h (by decide)
    · rw [if_neg h1] at h
      by_cases h2 : address.length < 32 ∨ address.length > 44
      · rw [if_pos h2] at h; exact absurd h (by decide)
      · rw [if_neg h2] at h
        cases ht : tryNewPublicKey address with
        | none => rw [ht] at h; exact absurd h (by decide)
        | some b =>
          push_neg at h2
          exact ⟨by omega, by omega, rfl⟩
  · rintro ⟨h1, h2, h3⟩
    obtain ⟨b, hb⟩ : ∃ b, tryNewPublicKey address = some b := by
      cases ht : tryNewPublicKey address with
      | none => rw [ht] at h3; simp at h3
      | some b => exact ⟨b, rfl⟩
    have hmem : ∀ c ∈ address.toList, c ∈ base58Alphabet := by
      have hb2 := hb
      unfold tryNewPublicKey at hb2
      cases hd : b58Decode address with
      | none => rw [hd] at hb2; exact Option.noConfusion hb2
      | some bytes =>
        unfold b58Decode at hd
        cases hn : b58DecodeNat address.toList with
        | none => rw [hn] at hd; exact Option.noConfusion hd
        | some v =>
          unfold b58DecodeNat at hn
          exact mem_alphabet_of_foldl address.toList (some 0) v hn
    have hne : address ≠ "" := by
      intro he
      rw [he] at h1
      exact absurd h1 (by decide)
    have hlen : address.length = address.toList.length := rfl
    have htrim : jsTrimEmpty address = false := by
      unfold jsTrimEmpty
      obtain ⟨c0, hc0⟩ : ∃ c, c ∈ address.toList := by
        cases hl : address.toList with
        | nil => rw [hlen, hl] at h1; exact absurd h1 (by decide)
        | cons a t => exact ⟨a, by simp [hl]⟩
      rw [Bool.eq_false_iff]
      intro hall
      rw [List.all_eq_true] at hall
      have := hall c0 hc0
      rw [alphabet_not_ws c0 (hmem c0 hc0)] at this
      exact Bool.noConfusion this
    have hc1 : ¬ (address = "" ∨ jsTrimEmpty address = true) := by
      rintro (he | hw)
      · exact hne he
      · rw [htrim] at hw; exact Bool.noConfusion hw
    have hc2 : ¬ (address.length < 32 ∨ address.length > 44) := by omega
    unfold isValidSolanaAddress
    rw [if_neg hc1, if_neg hc2, hb]

theorem splitOnChar_ne_nil (c : Char) (l : List Char) : splitOnChar c l ≠ [] := by
  cases l with
  | nil => simp [splitOnChar]
  | cons x xs =>
    unfold splitOnChar
    by_cases h : x = c
    · simp [h]
    · rw [if_neg h]
      cases splitOnChar c xs <;> simp

theorem splitOnChar_head (c : Char) (l : List Char) (h : List Char) (t : List (List Char))
    (he : splitOnChar c l = h :: t) : h = l.takeWhile (fun x => x != c) := by
  induction l generalizing h t with
  | nil =>
    simp [splitOnChar] at he
    rw [he.1, List.takeWhile_nil]
  | cons x xs ih =>
    unfold splitOnChar at he
    by_cases hx : x = c
    · rw [if_pos hx] at he
      injection he with he1 he2
      rw [← he1, List.takeWhile_cons]
      simp [hx]
    · rw [if_neg hx] at he
      cases hs : splitOnChar c xs with
      | nil => exact absurd hs (splitOnChar_ne_nil c xs)
      | cons h0 t0 =>
        rw [hs] at he
        injection he with he1 he2
        rw [← he1, List.takeWhile_cons]
        have hbx : (x != c) = true := by simp [hx]
        rw [if_pos hbx, ih h0 t0 hs]

theorem splitOnChar_second_le (l : List Char)
    (hdot : ∀ t, afterFirstDot l = some t → t.length ≤ 6) :
    ∀ p0 p1 rest, splitOnChar '.' l = p0 :: p1 :: rest → p1.length ≤ 6 := by
  induction l with
  | nil =>
    intro p0 p1 rest he
    simp [splitOnChar] at he
  | cons x xs ih =>
    intro p0 p1 rest he
    unfold splitOnChar at he
    by_cases hx : x = '.'
    · rw [if_pos hx] at he
      injection he with he1 he2
      have hafd : afterFirstDot (x :: xs) = some xs := by
        unfold afterFirstDot
        rw [List.dropWhile_cons]
        simp [hx]
      have hxs6 := hdot xs hafd
      have hhead := splitOnChar_head '.' xs p1 rest he2
      rw [hhead]
      exact le_trans (List.takeWhile_sublist _).length_le hxs6
    · rw [if_neg hx] at he
      cases hs : splitOnChar '.' xs with
      | nil => exact absurd hs (splitOnChar_ne_nil '.' xs)
      | cons h0 t0 =>
        rw [hs] at he
        injection he with he1 he2
        have hdot2 : ∀ t, afterFirstDot xs = some t → t.length ≤ 6 := by
          intro t ht
          apply hdot t
          unfold afterFirstDot at ht ⊢
          rw [List.dropWhile_cons]
          have hbx : (x != '.') = true := by simp [hx]
          rw [if_pos hbx]
          exact ht
        exact ih hdot2 h0 p1 rest (by rw [hs, he2])

/-- C10: isValidAmount accepts every non-empty string whose parseFloat
prefix-parse yields a positive number and which has at most six characters
after its first dot, even when the string is not a pure decimal numeral; in
particular the strings 10abc and 1e3 are accepted. -/
theorem c10_isValidAmount_accepts (s : String)
    (hne : s ≠ "")
    (hpos : (jsParseFloat s).isPositive = true)
    (hdot : ∀ t, afterFirstDot s.toList = some t → t.length ≤ 6) :
    (isValidAmount s).valid = true ∧
    (isValidAmount "10abc").valid = true ∧
    (isValidAmount "1e3").valid = true := by
  refine ⟨?_, by decide, by decide⟩
  have htrim : jsTrimEmpty s = false := by
    rw [Bool.eq_false_iff]
    intro hall
    unfold jsTrimEmpty at hall
    rw [List.all_eq_true] at hall
    have hdw : s.toList.dropWhile isJsWs = [] := List.dropWhile_eq_nil_iff.mpr hall
    have hnn : jsParseFloat s = JSNum.nan := by unfold jsParseFloat; rw [hdw]
    rw [hnn] at hpos
    exact absurd hpos (by decide)
  have hnan : (jsParseFloat s).isNaN = false := by
    cases hv : jsParseFloat s with
    | nan => rw [hv] at hpos; exact absurd hpos (by decide)
    | posInf => rfl
    | negInf => rw [hv] at hpos; exact absurd hpos (by decide)
    | num v => rfl
  have hle : (jsParseFloat s).leZero = false := by
    cases hv : jsParseFloat s with
    | nan => rw [hv] at hpos; exact absurd hpos (by decide)
    | posInf => rfl
    | negInf => rw [hv] at hpos; exact absurd hpos (by decide)
    | num v =>
      rw [hv] at hpos
      simp only [JSNum.isPositive, decide_eq_true_eq] at hpos
      simp only [JSNum.leZero, decide_eq_false_iff_not]
      omega
  have hc1 : ¬ (s = "" ∨ jsTrimEmpty s = true) := by
    rintro (he | hw)
    · exact hne he
    · rw [htrim] at hw; exact Bool.noConfusion hw
  simp only [isValidAmount]
  rw [if_neg hc1, hnan, hle]
  simp only [Bool.false_eq_true, if_false]
  cases hsp : splitOnChar '.' s.toList with
  | nil => exact absurd hsp (splitOnChar_ne_nil '.' s.toList)
  | cons p0 rest =>
    cases rest with
    | nil => rfl
    | cons p1 rest2 =>
      have hp1 : p1.length ≤ 6 := splitOnChar_second_le s.toList hdot p0 p1 rest2 hsp
      have hgt : ¬ p1.length > 6 := by omega
      simp [hgt]

/-- C10 witness: the string 10abc is non-empty, parseFloat reads the prefix 10
as a positive number, it has no dot, and isValidAmount accepts it. -/
theorem c10_witness :
    ("10abc" : String) ≠ "" ∧ (jsParseFloat "10abc").isPositive = true ∧
    (isValidAmount "10abc").valid = true := by
  refine ⟨by decide, by decide, ?_⟩
  have hdot : ∀ t, afterFirstDot ("10abc".toList) = some t → t.length ≤ 6 := by
    intro t ht
    rw [show afterFirstDot ("10abc".toList) = none from rfl] at ht
    exact Option.noConfusion ht
  exact (c10_isValidAmount_accepts "10abc" (by decide) (by decide) hdot).1

end Passkey
